import Mathlib

/-! # Geometry: 2D points and vectors

A shallow embedding of the library in `point.cpp`, `vector.cpp` and
`utils.cpp`.

The C++ code computes on `float`.  In the embedding the scalar type is a
parameter `F`: every `+`, `-`, `*`, `/` and `<` of the source is the operation
of `F`, and the three `<cmath>` calls and the `M_PI` macro are the fields of
the class `FloatEnv`.  The same definitions are read in two arithmetics.

* Exact arithmetic: `F` is a field.  Theorems that use only the field laws
  are stated for every field; those that depend on `<cmath>` are stated for
  `F = ℝ` with `realEnv`, where `std::sqrt`, `std::cos`, `std::sin` are the
  real functions and `M_PI` is the number `π`.  `literalEnv` differs from
  `realEnv` only in `M_PI`, which is the decimal constant of the source.
* Binary32: `F` is `Binary32`, IEEE-754 single precision with rounding to
  nearest, underflow, overflow, signed zeros and NaN, with `binary32Env`.
  It is used to evaluate the library at concrete inputs.

Overloads of the source get distinct names here:

* `Translate(p, dx, dy)` is `TranslateXY`, `Translate(p, v)` is `Translate`;
* `Scale(p, sx, sy)` is `ScaleXY`, `Scale(p, s)` is `ScaleBy`,
  and `Scale(v, scalar)` of `vector.cpp` is `Scale`;
* `MakeV2f(x, y)` is `MakeV2f`, `MakeV2f(a, b)` on two points is `MakeV2fBetween`.
-/

namespace Geometry

/-! ## Numeric environment -/

/-- The part of the C++ numeric environment the library calls into:
`std::sqrt`, `std::cos`, `std::sin` from `<cmath>` and the macro `M_PI`. -/
class FloatEnv (F : Type) where
  /-- The function `std::sqrt`. -/
  sqrt : F → F
  /-- The function `std::cos`. -/
  cos : F → F
  /-- The function `std::sin`. -/
  sin : F → F
  /-- The macro `M_PI`. -/
  M_PI : F

/-- The exact-arithmetic environment: real square root, cosine and sine,
and `M_PI` read as `π`.  In the compiled program `M_PI` is the `double`
nearest to `π`, just as `std::sqrt x` is the `float` nearest to `√x`; the
exact model replaces each of them by the number it approximates. -/
noncomputable instance realEnv : FloatEnv ℝ where
  sqrt := Real.sqrt
  cos := Real.cos
  sin := Real.sin
  M_PI := Real.pi

/-- The exact-arithmetic environment with `M_PI` the decimal constant that
`point.cpp` defines (and that `<cmath>` defines where it has the macro): real
square root, cosine and sine, but `M_PI` is `3.14159265358979323846`, a
rational number slightly below `π`. -/
noncomputable def literalEnv : FloatEnv ℝ where
  sqrt := Real.sqrt
  cos := Real.cos
  sin := Real.sin
  M_PI := 3.14159265358979323846

/-! ## Binary32 arithmetic

The second reading of `float`: IEEE-754 binary32 with round-to-nearest,
ties-to-even, gradual underflow, overflow to infinity, signed zeros and NaN.
Every finite binary32 value is an integer multiple of `2^-149`, so a finite
value is stored as a sign and that integer. -/

/-- An IEEE-754 binary32 value: `finite neg units` is `±units · 2^-149`
(negative when `neg`), `inf neg` is `±∞`, and `nan` is NaN. -/
inductive Binary32 where
  | finite (neg : Bool) (units : Nat)
  | inf (neg : Bool)
  | nan
deriving DecidableEq, Repr

namespace Binary32

/-- Auxiliary for `bitLength`, by recursion on a bound for the length. -/
def bitLengthAux : Nat → Nat → Nat
  | 0, _ => 0
  | fuel + 1, m => if m = 0 then 0 else bitLengthAux fuel (m / 2) + 1

/-- The number of binary digits of `n`. -/
def bitLength (n : Nat) : Nat :=
  bitLengthAux n n

/-- Rounding to nearest, ties to even, at precision `prec`: the integer
nearest to `num / den` among those with at most `prec` significant binary
digits (an integer below `2 ^ prec`, or such an integer times a power of two). -/
def roundNearestEven (prec num den : Nat) : Nat :=
  let q := num / den
  let k := bitLength q - prec
  let d := den * 2 ^ k
  let m := num / d
  let r := num % d
  let m := if 2 * r > d ∨ (2 * r = d ∧ m % 2 = 1) then m + 1 else m
  m * 2 ^ k

/-- The binary32 value nearest to `±(num / den) · 2^-149`; results of `2^128`
and more overflow to infinity. -/
def ofUnits (neg : Bool) (num den : Nat) : Binary32 :=
  let n := roundNearestEven 24 num den
  if n ≥ 2 ^ 277 then inf neg else finite neg n

/-- The binary32 value nearest to `±num / den`: how a literal is read. -/
def ofFrac (neg : Bool) (num den : Nat) : Binary32 :=
  ofUnits neg (num * 2 ^ 149) den

/-- Unary minus. -/
def neg : Binary32 → Binary32
  | finite s n => finite (!s) n
  | inf s => inf (!s)
  | nan => nan

/-- Addition, correctly rounded. -/
def add : Binary32 → Binary32 → Binary32
  | finite s1 n1, finite s2 n2 =>
    if s1 = s2 then ofUnits s1 (n1 + n2) 1
    else if n2 < n1 then ofUnits s1 (n1 - n2) 1
    else if n1 < n2 then ofUnits s2 (n2 - n1) 1
    else finite false 0
  | finite _ _, inf s => inf s
  | inf s, finite _ _ => inf s
  | inf s1, inf s2 => if s1 = s2 then inf s1 else nan
  | _, _ => nan

/-- Subtraction, correctly rounded. -/
def sub (a b : Binary32) : Binary32 :=
  add a (neg b)

/-- Multiplication, correctly rounded. -/
def mul : Binary32 → Binary32 → Binary32
  | finite s1 n1, finite s2 n2 => ofUnits (s1 != s2) (n1 * n2) (2 ^ 149)
  | finite s1 n1, inf s2 => if n1 = 0 then nan else inf (s1 != s2)
  | inf s1, finite s2 n2 => if n2 = 0 then nan else inf (s1 != s2)
  | inf s1, inf s2 => inf (s1 != s2)
  | _, _ => nan

/-- Division, correctly rounded. -/
def div : Binary32 → Binary32 → Binary32
  | finite s1 n1, finite s2 n2 =>
    if n2 = 0 then (if n1 = 0 then nan else inf (s1 != s2))
    else ofUnits (s1 != s2) (n1 * 2 ^ 149) n2
  | finite s1 _, inf s2 => finite (s1 != s2) 0
  | inf s1, finite s2 _ => inf (s1 != s2)
  | _, _ => nan

/-- Auxiliary for `isqrt`: tries the bits from the top down. -/
def isqrtAux (N : Nat) : Nat → Nat → Nat
  | 0, r => r
  | b + 1, r =>
    if (r + 2 ^ b) * (r + 2 ^ b) ≤ N then isqrtAux N b (r + 2 ^ b) else isqrtAux N b r

/-- The integer square root: the largest `r` with `r * r ≤ N`. -/
def isqrt (N : Nat) : Nat :=
  isqrtAux N (bitLength N / 2 + 1) 0

/-- The function `std::sqrt` on `float`, correctly rounded as IEEE-754
requires.  The root of `n · 2^-149` is `√(n · 2^149)` units; it is computed to
two extra binary digits with a sticky digit, which decides the rounding. -/
def sqrt : Binary32 → Binary32
  | finite s n =>
    if n = 0 then finite s 0
    else if s then nan
    else
      let N := n * 2 ^ 149 * 16
      let r := isqrt N
      let sticky := if r * r = N then 0 else 1
      ofUnits false (2 * r + sticky) 8
  | inf s => if s then nan else inf false
  | nan => nan

/-- The comparison `a < b`; false when either side is NaN, and `-0 < +0` is
false. -/
def lt : Binary32 → Binary32 → Bool
  | finite s1 n1, finite s2 n2 =>
    match s1, s2 with
    | false, false => decide (n1 < n2)
    | true, true => decide (n2 < n1)
    | true, false => decide (0 < n1 ∨ 0 < n2)
    | false, true => false
  | finite _ _, inf s => !s
  | inf s, finite _ _ => s
  | inf s1, inf s2 => s1 && !s2
  | _, _ => false

/-- The number of Taylor terms used for an argument of `n` units. -/
def taylorTerms (n : Nat) : Nat :=
  16 + 4 * (n / 2 ^ 149)

/-- The denominator over which `taylorNumerator` is taken. -/
def taylorDenominator (terms : Nat) : Nat :=
  Nat.factorial (2 * terms) * 2 ^ (149 * (2 * terms))

/-- The numerator of the Taylor polynomial
`Σ k < terms, (-1)^k · v^(2k+o) / (2k+o)!` at `v = n · 2^-149`, over
`taylorDenominator terms`; `o = 0` gives the cosine series and `o = 1` the
sine series. -/
def taylorNumerator (n terms o : Nat) : Int :=
  (List.range terms).foldl
    (fun acc k =>
      acc + (if k % 2 = 0 then 1 else -1) *
        Int.ofNat (n ^ (2 * k + o) * 2 ^ (149 * (2 * terms - (2 * k + o))) *
          (Nat.factorial (2 * terms) / Nat.factorial (2 * k + o))))
    0

/-- The function `std::cos` on `float`.  The C++ standard does not fix its
last bit; it is modelled by the binary32 nearest to a Taylor polynomial whose
truncation error is far below the binary32 spacing. -/
def cos : Binary32 → Binary32
  | finite _ n =>
    let t := taylorTerms n
    let c := taylorNumerator n t 0
    ofFrac (decide (c < 0)) c.natAbs (taylorDenominator t)
  | _ => nan

/-- The function `std::sin` on `float`, modelled like `cos`. -/
def sin : Binary32 → Binary32
  | finite s n =>
    let t := taylorTerms n
    let c := taylorNumerator n t 1
    ofFrac (s != decide (c < 0)) c.natAbs (taylorDenominator t)
  | _ => nan

/-- The statement `float angleRad = angleDegree * (M_PI / 180.0f)` of
`Rotate` as C++ evaluates it: `M_PI` is a `double`, so the quotient and the
product are computed in binary64 (precision 53, units of `2^-1074`) and the
product is then converted to `float`. -/
def radiansViaDouble : Binary32 → Binary32
  | finite s n =>
    let pi64 :=
      roundNearestEven 53 (314159265358979323846 * 2 ^ 1074) 100000000000000000000
    let perDegree := roundNearestEven 53 pi64 180
    let product := roundNearestEven 53 (n * perDegree) (2 ^ 149)
    ofUnits s product (2 ^ 925)
  | inf s => inf s
  | nan => nan

instance instAdd : Add Binary32 := ⟨add⟩

instance instSub : Sub Binary32 := ⟨sub⟩

instance instMul : Mul Binary32 := ⟨mul⟩

instance instDiv : Div Binary32 := ⟨div⟩

instance instNeg : Neg Binary32 := ⟨neg⟩

instance instZero : Zero Binary32 := ⟨finite false 0⟩

instance instOne : One Binary32 := ⟨ofFrac false 1 1⟩

instance instOfNat (n : Nat) [Nat.AtLeastTwo n] : OfNat Binary32 n := ⟨ofFrac false n 1⟩

instance instLT : LT Binary32 := ⟨fun a b => lt a b = true⟩

instance instDecidableLT (a b : Binary32) : Decidable (a < b) :=
  inferInstanceAs (Decidable (lt a b = true))

end Binary32

/-- The binary32 environment: correctly rounded `std::sqrt`, the modelled
`std::cos` and `std::sin`, and `M_PI` converted to `float`. -/
instance binary32Env : FloatEnv Binary32 where
  sqrt := Binary32.sqrt
  cos := Binary32.cos
  sin := Binary32.sin
  M_PI := Binary32.ofFrac false 314159265358979323846 100000000000000000000

/-! ## Data model -/

/-- Modelled from the spec: the declaration of `struct Point2f` lives in
`point.h`, which is not among the sources; the spec gives it the two
attributes `x` and `y`. -/
@[ext]
structure Point2f (F : Type) where
  x : F
  y : F
deriving DecidableEq, Repr

/-- Modelled from the spec: the declaration of `struct Vector2f` lives in
`vector.h`, which is not among the sources; the spec gives it the two
attributes `x` and `y`. -/
@[ext]
structure Vector2f (F : Type) where
  x : F
  y : F
deriving DecidableEq, Repr

/-! ## point.cpp -/

section PointOps

variable {F : Type}

/-- `Point2f MakeP2f(float x, float y)`. -/
def MakeP2f (x y : F) : Point2f F :=
  ⟨x, y⟩

/-- `Point2f Translate(const Point2f& p, float dx, float dy)`. -/
def TranslateXY [HAdd F F F] (p : Point2f F) (dx dy : F) : Point2f F :=
  ⟨p.x + dx, p.y + dy⟩

/-- `Point2f Translate(const Point2f& p, const Vector2f& v)`. -/
def Translate [HAdd F F F] (p : Point2f F) (v : Vector2f F) : Point2f F :=
  ⟨p.x + v.x, p.y + v.y⟩

/-- `Point2f Scale(const Point2f& p, float sx, float sy)`. -/
def ScaleXY [HMul F F F] (p : Point2f F) (sx sy : F) : Point2f F :=
  ⟨p.x * sx, p.y * sy⟩

/-- `Point2f Scale(const Point2f& p, const Vector2f& s)`. -/
def ScaleBy [HMul F F F] (p : Point2f F) (s : Vector2f F) : Point2f F :=
  ⟨p.x * s.x, p.y * s.y⟩

/-- `Point2f Rotate(const Point2f& p, float angleDegree)`. -/
def Rotate [HAdd F F F] [HSub F F F] [HMul F F F] [HDiv F F F] [OfNat F 180]
    [FloatEnv F] (p : Point2f F) (angleDegree : F) : Point2f F :=
  let angleRad := angleDegree * (FloatEnv.M_PI / 180)
  let cosA := FloatEnv.cos angleRad
  let sinA := FloatEnv.sin angleRad
  let newX := p.x * cosA - p.y * sinA
  let newY := p.x * sinA + p.y * cosA
  ⟨newX, newY⟩

end PointOps

/-! ## vector.cpp -/

section VectorOps

variable {F : Type}

/-- `Vector2f MakeV2f(float x, float y)`. -/
def MakeV2f (x y : F) : Vector2f F :=
  ⟨x, y⟩

/-- `Vector2f MakeV2f(const Point2f& a, const Point2f& b)`: the vector from
`a` to `b`. -/
def MakeV2fBetween [HSub F F F] (a b : Point2f F) : Vector2f F :=
  ⟨b.x - a.x, b.y - a.y⟩

/-- `Vector2f Add(const Vector2f& a, const Vector2f& b)`. -/
def Add [HAdd F F F] (a b : Vector2f F) : Vector2f F :=
  ⟨a.x + b.x, a.y + b.y⟩

/-- `Vector2f Sub(const Vector2f& a, const Vector2f& b)`. -/
def Sub [HSub F F F] (a b : Vector2f F) : Vector2f F :=
  ⟨a.x - b.x, a.y - b.y⟩

/-- `Vector2f Scale(const Vector2f& v, float scalar)`. -/
def Scale [HMul F F F] (v : Vector2f F) (scalar : F) : Vector2f F :=
  ⟨v.x * scalar, v.y * scalar⟩

/-- `float Dot(const Vector2f& a, const Vector2f& b)`. -/
def Dot [HAdd F F F] [HMul F F F] (a b : Vector2f F) : F :=
  a.x * b.x + a.y * b.y

/-- `float Length(const Vector2f& v)`. -/
def Length [HAdd F F F] [HMul F F F] [FloatEnv F] (v : Vector2f F) : F :=
  FloatEnv.sqrt (Dot v v)

/-- `Vector2f Normalize(const Vector2f& v)`. -/
def Normalize [HAdd F F F] [HMul F F F] [HDiv F F F] [Zero F] [One F] [LT F]
    [DecidableRel (fun a b : F => a < b)] [FloatEnv F] (v : Vector2f F) :
    Vector2f F :=
  let len := Length v
  if len > 0 then
    let invLen := 1 / len
    ⟨v.x * invLen, v.y * invLen⟩
  else
    ⟨0, 0⟩

/-- The one arithmetic fault the library guards against. -/
inductive ArithFault where
  | divisionByZero
deriving DecidableEq, Repr

/-- Division that reports a zero divisor instead of evaluating the quotient. -/
def checkedDiv [HDiv F F F] [Zero F] [DecidableEq F] (a b : F) : Except ArithFault F :=
  if b = 0 then Except.error ArithFault.divisionByZero else Except.ok (a / b)

/-- The body of `Normalize` with its one division replaced by `checkedDiv`:
same control flow, but a zero divisor would surface as an error. -/
def NormalizeChecked [HAdd F F F] [HMul F F F] [HDiv F F F] [Zero F] [One F] [LT F]
    [DecidableRel (fun a b : F => a < b)] [DecidableEq F] [FloatEnv F]
    (v : Vector2f F) : Except ArithFault (Vector2f F) :=
  let len := Length v
  if len > 0 then
    match checkedDiv 1 len with
    | Except.ok invLen => Except.ok ⟨v.x * invLen, v.y * invLen⟩
    | Except.error e => Except.error e
  else
    Except.ok ⟨0, 0⟩

/-- `Vector2f Lerp(const Vector2f& a, const Vector2f& b, float t)`. -/
def Lerp [HAdd F F F] [HSub F F F] [HMul F F F] [One F] (a b : Vector2f F) (t : F) : Vector2f F :=
  let one_minus_t := 1 - t
  ⟨a.x * one_minus_t + b.x * t, a.y * one_minus_t + b.y * t⟩

/-- `float Determinant(const Vector2f& a, const Vector2f& b)`. -/
def Determinant [HSub F F F] [HMul F F F] (a b : Vector2f F) : F :=
  a.x * b.y - a.y * b.x

end VectorOps

/-- The function `Rotate` in the exact-arithmetic environment whose `M_PI` is
the decimal constant of `point.cpp`. -/
noncomputable def RotateLiteral (p : Point2f ℝ) (angleDegree : ℝ) : Point2f ℝ :=
  @Rotate ℝ _ _ _ _ _ literalEnv p angleDegree

/-! ## utils.cpp

The three `ToString` templates and `Print`.  An `std::ostringstream` is the
string written so far; `oss << x` appends.  The overloads are named
`ToString` (base template), `ToStringVector` and `ToStringMap`.  Inside the
container overloads the unqualified calls `ToString(v[i])`,
`ToString(it->first)` and `ToString(it->second)` are dependent calls: which
overload they bind to is decided when the template is instantiated.  The
bodies therefore take the bound function as an argument, and `instantiate`
below performs the binding. -/

section Utils

/-- The stream insertion `operator<<` that the standard library provides for
a scalar type: the text `oss << value` appends. -/
class StreamInsert (T : Type) where
  put : T → String

/-- Stream insertion for `int`: the decimal numeral. -/
instance streamInsertInt : StreamInsert Int where
  put n := toString n

/-- Stream insertion for `std::string`: the characters themselves. -/
instance streamInsertString : StreamInsert String where
  put s := s

/-- `template<typename T> std::string ToString(const T& value)`. -/
def ToString {T : Type} [StreamInsert T] (value : T) : String :=
  let oss := ""
  let oss := oss ++ StreamInsert.put value
  oss

/-- The `for (size_t i = 0; i < v.size(); ++i)` loop of the vector overload,
entered at index `i` with `oss` written so far. -/
def ToStringVector.loop {T : Type} (elem : T → String) (v : List T) (i : Nat)
    (oss : String) : String :=
  if h : i < v.length then
    let oss := oss ++ elem v[i]
    let oss := if i + 1 < v.length then oss ++ ", " else oss
    ToStringVector.loop elem v (i + 1) oss
  else
    oss
termination_by v.length - i

/-- `template<typename T> std::string ToString(const std::vector<T>& v)`;
`elem` is the function the call `ToString(v[i])` is bound to. -/
def ToStringVector {T : Type} (elem : T → String) (v : List T) : String :=
  let oss := ""
  let oss := oss ++ "["
  let oss := ToStringVector.loop elem v 0 oss
  let oss := oss ++ "]"
  oss

/-- A `std::map<K, V>` as a traversal from `begin()` to `end()` sees it: its
entries in iteration order (for `std::map`, ascending keys). -/
abbrev StdMap (K V : Type) : Type :=
  List (K × V)

/-- The `for (auto it = m.begin(); it != m.end(); ++it)` loop of the map
overload.  The iterator is the list of entries from `it` onwards: `m.end()`
is the empty list and `std::next(it)` is the tail. -/
def ToStringMap.loop {K V : Type} (key : K → String) (val : V → String) :
    StdMap K V → String → String
  | [], oss => oss
  | e :: next, oss =>
    let oss := oss ++ key e.1 ++ ": " ++ val e.2
    let oss := if next.isEmpty then oss else oss ++ ", "
    ToStringMap.loop key val next oss

/-- `template<typename K, typename V> std::string ToString(const std::map<K, V>& m)`;
`key` and `val` are the functions the calls `ToString(it->first)` and
`ToString(it->second)` are bound to. -/
def ToStringMap {K V : Type} (key : K → String) (val : V → String) (m : StdMap K V) :
    String :=
  let oss := ""
  let oss := oss ++ "\x7b"
  let oss := ToStringMap.loop key val m oss
  let oss := oss ++ "\x7d"
  oss

/-- One argument of a `Print` call: a value of some type together with the
function the call `ToString(first)` or `ToString(args)` is bound to. -/
structure PrintArg where
  T : Type
  value : T
  bound : T → String

/-- The text `ToString` yields for a `Print` argument. -/
def PrintArg.text (a : PrintArg) : String :=
  a.bound a.value

/-- `template<typename T, typename... Args> void Print(const T& first, const Args&... args)`.
Standard output is the string `cout` written so far; the result is standard
output after the call.  The fold expression over the comma operator handles
`args` from left to right, and `std::endl` writes a newline. -/
def Print (first : PrintArg) (args : List PrintArg) (cout : String) : String :=
  let cout := cout ++ first.text
  let cout := args.foldl (fun out a => out ++ ", " ++ a.text) cout
  let cout := cout ++ "\n"
  cout

/-! ### Binding of the dependent calls -/

/-- The argument types considered for `ToString`: `int`, `std::string`, and
`std::vector` and `std::map` of such types, nested to any depth. -/
inductive CppType where
  | int
  | string
  | vector (elem : CppType)
  | map (key value : CppType)
deriving DecidableEq, Repr

/-- The values of a `CppType`. -/
def CppType.Value : CppType → Type
  | CppType.int => Int
  | CppType.string => String
  | CppType.vector elem => List elem.Value
  | CppType.map key value => StdMap key.Value value.Value

/-- The three `ToString` templates, in the order the file declares them. -/
inductive Overload where
  | base
  | vector
  | map
deriving DecidableEq, Repr

/-- Where an unqualified call to `ToString` is written. -/
inductive CallSite where
  | vectorBody
  | mapBody
  | afterTemplates
deriving DecidableEq, Repr

/-- The overloads unqualified lookup finds at a call site: those declared
before it.  The body of the vector overload precedes the declaration of the
map overload; the body of `Print` and any user code come after all three.
Argument-dependent lookup adds nothing for a `CppType`: the only namespace
associated with `int`, `std::string`, `std::vector` and `std::map` is `std`,
and the templates are declared in the global namespace. -/
def CallSite.visible : CallSite → List Overload
  | CallSite.vectorBody => [Overload.base, Overload.vector]
  | CallSite.mapBody => [Overload.base, Overload.vector, Overload.map]
  | CallSite.afterTemplates => [Overload.base, Overload.vector, Overload.map]

/-- Overload resolution for `ToString(x)` with `x` of type `t` at a call
site: the most specialised visible template whose parameter matches. -/
def resolve (site : CallSite) : CppType → Overload
  | CppType.vector _ =>
    if Overload.vector ∈ site.visible then Overload.vector else Overload.base
  | CppType.map _ _ =>
    if Overload.map ∈ site.visible then Overload.map else Overload.base
  | _ => Overload.base

/-- Instantiation of a call `ToString(x)` with `x` of type `t` at a call
site: the function the call is bound to, or `none` when the instantiation is
ill-formed because the base template is chosen for a container, which has no
`operator<<`. -/
def instantiate : CallSite → (t : CppType) → Option (t.Value → String)
  | _, CppType.int => some (fun n : Int => ToString n)
  | _, CppType.string => some (fun s : String => ToString s)
  | site, CppType.vector elem =>
    match resolve site (CppType.vector elem) with
    | Overload.vector =>
      match instantiate CallSite.vectorBody elem with
      | some f => some (fun v : List elem.Value => ToStringVector f v)
      | none => none
    | _ => none
  | site, CppType.map key value =>
    match resolve site (CppType.map key value) with
    | Overload.map =>
      match instantiate CallSite.mapBody key, instantiate CallSite.mapBody value with
      | some fk, some fv => some (fun m : StdMap key.Value value.Value => ToStringMap fk fv m)
      | _, _ => none
    | _ => none

end Utils

/-! ## Unfolding lemmas for the real environment -/

theorem Length_real (v : Vector2f ℝ) : Length v = Real.sqrt (v.x * v.x + v.y * v.y) :=
  rfl

theorem Rotate_real (p : Point2f ℝ) (a : ℝ) :
    Rotate p a =
      ⟨p.x * Real.cos (a * (Real.pi / 180)) - p.y * Real.sin (a * (Real.pi / 180)),
       p.x * Real.sin (a * (Real.pi / 180)) + p.y * Real.cos (a * (Real.pi / 180))⟩ :=
  rfl

theorem Length_nonneg (v : Vector2f ℝ) : 0 ≤ Length v :=
  Real.sqrt_nonneg _

theorem Length_pos_iff (v : Vector2f ℝ) : 0 < Length v ↔ v ≠ MakeV2f 0 0 := by
  rw [Length_real, Real.sqrt_pos]
  constructor
  · rintro h rfl
    simp [MakeV2f] at h
  · intro h
    have hne : v.x ≠ 0 ∨ v.y ≠ 0 := by
      by_contra hc
      push_neg at hc
      exact h (Vector2f.ext hc.1 hc.2)
    rcases hne with hx | hy
    · have := mul_self_pos.mpr hx
      nlinarith [mul_self_nonneg v.y]
    · have := mul_self_pos.mpr hy
      nlinarith [mul_self_nonneg v.x]

theorem Dot_self_real (v : Vector2f ℝ) : Dot v v = v.x * v.x + v.y * v.y :=
  rfl

theorem checkedDiv_of_pos {F : Type} [LinearOrderedField F] (a b : F) (hb : 0 < b) :
    checkedDiv a b = Except.ok (a / b) := by
  unfold checkedDiv
  rw [if_neg (ne_of_gt hb)]

theorem NormalizeChecked_eq {F : Type} [LinearOrderedField F] [FloatEnv F] (w : Vector2f F) :
    NormalizeChecked w = Except.ok (Normalize w) := by
  unfold NormalizeChecked Normalize
  by_cases hlen : Length w > 0
  · simp only [hlen, if_true, checkedDiv_of_pos 1 (Length w) hlen]
  · simp only [hlen, if_false]

/-! ## Normalize -/

/-- C1: if `Length v` is not greater than 0 then `Normalize v` is exactly the
zero vector; and on every input the one division of `Normalize` is reached
only with a positive divisor, so the checked run never reports a division by
zero and returns what `Normalize` returns.  This holds for every ordered
field of scalars and every square-root function. -/
theorem Normalize_of_not_pos {F : Type} [LinearOrderedField F] [FloatEnv F]
    (v : Vector2f F) (h : ¬ Length v > 0) :
    Normalize v = MakeV2f 0 0 ∧
      NormalizeChecked v = Except.ok (MakeV2f 0 0) ∧
      ∀ w : Vector2f F, NormalizeChecked w = Except.ok (Normalize w) := by
  have hz : Normalize v = MakeV2f 0 0 := by
    unfold Normalize MakeV2f
    simp only [h, if_false]
  refine ⟨hz, ?_, NormalizeChecked_eq⟩
  rw [NormalizeChecked_eq, hz]

theorem Normalize_of_not_pos_witness :
    ¬ Length (MakeV2f (0 : ℝ) 0) > 0 ∧
      Normalize (MakeV2f (0 : ℝ) 0) = MakeV2f 0 0 ∧
      NormalizeChecked (MakeV2f (0 : ℝ) 0) = Except.ok (MakeV2f 0 0) :=
  have h0 : ¬ Length (MakeV2f (0 : ℝ) 0) > 0 := by
    simp [Length_real, MakeV2f]
  ⟨h0, (Normalize_of_not_pos (MakeV2f (0 : ℝ) 0) h0).1,
    (Normalize_of_not_pos (MakeV2f (0 : ℝ) 0) h0).2.1⟩

/-- C2: for every vector other than the zero vector, the normalized vector
has length exactly 1 (over the reals). -/
theorem Length_Normalize (v : Vector2f ℝ) (h : v ≠ MakeV2f 0 0) :
    Length (Normalize v) = 1 := by
  have hpos : 0 < Length v := (Length_pos_iff v).mpr h
  have hne : Length v ≠ 0 := ne_of_gt hpos
  have hsq : Length v * Length v = v.x * v.x + v.y * v.y := by
    rw [Length_real]
    exact Real.mul_self_sqrt (add_nonneg (mul_self_nonneg _) (mul_self_nonneg _))
  have hN : Normalize v = ⟨v.x * (1 / Length v), v.y * (1 / Length v)⟩ := by
    unfold Normalize
    simp only [gt_iff_lt, hpos, if_true]
  rw [hN, Length_real]
  have hone : v.x * (1 / Length v) * (v.x * (1 / Length v)) +
      v.y * (1 / Length v) * (v.y * (1 / Length v)) = 1 := by
    field_simp
    linarith [hsq]
  rw [hone, Real.sqrt_one]

theorem Length_Normalize_witness :
    MakeV2f (3 : ℝ) 4 ≠ MakeV2f 0 0 ∧ Length (Normalize (MakeV2f (3 : ℝ) 4)) = 1 :=
  have h : MakeV2f (3 : ℝ) 4 ≠ MakeV2f 0 0 := by
    simp [MakeV2f]
  ⟨h, Length_Normalize (MakeV2f 3 4) h⟩

/-! ## Rotate -/

/-- C3: over the reals, rotation about the origin preserves the distance from
the origin exactly, for every point and every angle. -/
theorem Length_Rotate (p : Point2f ℝ) (θ : ℝ) :
    Length (MakeV2fBetween (MakeP2f 0 0) (Rotate p θ)) =
      Length (MakeV2fBetween (MakeP2f 0 0) p) := by
  rw [Length_real, Length_real, Rotate_real]
  congr 1
  simp only [MakeV2fBetween, MakeP2f, sub_zero]
  have hcs := Real.sin_sq_add_cos_sq (θ * (Real.pi / 180))
  nlinarith [hcs]

/-! ## Translation and point difference -/

/-- C4: over exact arithmetic (any field), the vector from `a` to `a`
translated by `(dx, dy)` is `(dx, dy)`. -/
theorem MakeV2fBetween_Translate {F : Type} [Field F] (a : Point2f F) (dx dy : F) :
    MakeV2fBetween a (Translate a (MakeV2f dx dy)) = MakeV2f dx dy := by
  simp [MakeV2fBetween, Translate, MakeV2f]

/-! ## Lerp -/

/-- C5: `Lerp a b 0` is `a` and `Lerp a b 1` is `b`. -/
theorem Lerp_boundary {F : Type} [Field F] (a b : Vector2f F) :
    Lerp a b 0 = a ∧ Lerp a b 1 = b := by
  constructor <;> simp [Lerp]

/-! ## Rotate: formula and special angles -/

/-- C6: over the reals with `M_PI` read as `π`, and with `r = θ·π/180`,
`Rotate (x, y) θ` is
`(x·cos r − y·sin r, x·sin r + y·cos r)`.  This is the counter-clockwise
rotation about the origin by `θ` degrees: the point at distance `ρ` and polar
angle `φ` goes to the point at distance `ρ` and polar angle `φ + r`; in
particular `Rotate (1, 0) 90 = (0, 1)`. -/
theorem Rotate_formula (p : Point2f ℝ) (θ ρ φ : ℝ) :
    Rotate p θ =
        MakeP2f (p.x * Real.cos (θ * Real.pi / 180) - p.y * Real.sin (θ * Real.pi / 180))
          (p.x * Real.sin (θ * Real.pi / 180) + p.y * Real.cos (θ * Real.pi / 180)) ∧
      Rotate (MakeP2f (ρ * Real.cos φ) (ρ * Real.sin φ)) θ =
        MakeP2f (ρ * Real.cos (φ + θ * Real.pi / 180))
          (ρ * Real.sin (φ + θ * Real.pi / 180)) ∧
      Rotate (MakeP2f (1 : ℝ) 0) 90 = MakeP2f 0 1 := by
  refine ⟨?_, ?_, ?_⟩
  · rw [Rotate_real, mul_div_assoc]
    rfl
  · rw [Rotate_real, mul_div_assoc, Real.cos_add, Real.sin_add]
    simp only [MakeP2f]
    congr 1 <;> ring
  · have h90 : (90 : ℝ) * (Real.pi / 180) = Real.pi / 2 := by ring
    rw [Rotate_real, h90, Real.cos_pi_div_two, Real.sin_pi_div_two]
    simp [MakeP2f]

/-- C7: over the reals with `M_PI` read as `π`, a full turn is the identity,
`Rotate p 360 = p`. -/
theorem Rotate_full_turn (p : Point2f ℝ) : Rotate p 360 = p := by
  have h360 : (360 : ℝ) * (Real.pi / 180) = 2 * Real.pi := by ring
  rw [Rotate_real, h360, Real.cos_two_pi, Real.sin_two_pi]
  simp

/-! ## Dot and Determinant -/

/-- C8: `Determinant a b = -Determinant b a`. -/
theorem Determinant_antisymm {F : Type} [Field F] (a b : Vector2f F) :
    Determinant a b = -Determinant b a := by
  unfold Determinant
  ring

/-- C9: `Dot a b = Dot b a`. -/
theorem Dot_comm {F : Type} [Field F] (a b : Vector2f F) : Dot a b = Dot b a := by
  unfold Dot
  ring

/-- C11: `Length v` is the square root of `Dot v v` and is never negative;
in particular `Length (3, 4) = 5`. -/
theorem Length_eq_sqrt_Dot (v : Vector2f ℝ) :
    Length v = Real.sqrt (Dot v v) ∧ 0 ≤ Length v ∧ Length (MakeV2f (3 : ℝ) 4) = 5 := by
  refine ⟨rfl, Real.sqrt_nonneg _, ?_⟩
  rw [Length_real]
  have h25 : (MakeV2f (3 : ℝ) 4).x * (MakeV2f (3 : ℝ) 4).x +
      (MakeV2f (3 : ℝ) 4).y * (MakeV2f (3 : ℝ) 4).y = 5 * 5 := by
    simp only [MakeV2f]
    norm_num
  rw [h25]
  exact Real.sqrt_mul_self (by norm_num)

/-! ## Lerp: the two formulas, symmetry -/

/-- C16: over exact arithmetic (any field), the implemented `a*(1-t) + b*t`
agrees with the documented `a + (b - a)*t`, that is
`Lerp a b t = Add a (Scale (Sub b a) t)`. -/
theorem Lerp_eq_Add_Scale_Sub {F : Type} [Field F] (a b : Vector2f F) (t : F) :
    Lerp a b t = Add a (Scale (Sub b a) t) := by
  unfold Lerp Add Scale Sub
  apply Vector2f.ext
  · show a.x * (1 - t) + b.x * t = a.x + (b.x - a.x) * t
    ring
  · show a.y * (1 - t) + b.y * t = a.y + (b.y - a.y) * t
    ring

/-- C20: over exact arithmetic (any field), `Lerp a b t = Lerp b a (1 - t)`,
and `Lerp a a t = a`. -/
theorem Lerp_swap {F : Type} [Field F] (a b : Vector2f F) (t : F) :
    Lerp a b t = Lerp b a (1 - t) ∧ Lerp a a t = a := by
  constructor
  · unfold Lerp
    apply Vector2f.ext
    · show a.x * (1 - t) + b.x * t = b.x * (1 - (1 - t)) + a.x * (1 - t)
      ring
    · show a.y * (1 - t) + b.y * t = b.y * (1 - (1 - t)) + a.y * (1 - t)
      ring
  · unfold Lerp
    apply Vector2f.ext
    · show a.x * (1 - t) + a.x * t = a.x
      ring
    · show a.y * (1 - t) + a.y * t = a.y
      ring

/-! ## Normalize keeps the direction -/

/-- C17: over the reals, for a vector of positive length, `Normalize v` is
`v` scaled by `1 / Length v`; it is parallel to `v` (zero determinant) and points the same
way (`Dot v (Normalize v) = Length v > 0`). -/
theorem Normalize_eq_Scale (v : Vector2f ℝ) (h : Length v > 0) :
    Normalize v = Scale v (1 / Length v) ∧
      Determinant v (Normalize v) = 0 ∧
      Dot v (Normalize v) = Length v ∧ 0 < Dot v (Normalize v) := by
  have hne : Length v ≠ 0 := ne_of_gt h
  have hsq : Length v * Length v = v.x * v.x + v.y * v.y := by
    rw [Length_real]
    exact Real.mul_self_sqrt (add_nonneg (mul_self_nonneg _) (mul_self_nonneg _))
  have hN : Normalize v = Scale v (1 / Length v) := by
    unfold Normalize Scale
    simp only [h, if_true]
  have hdot : Dot v (Normalize v) = Length v := by
    rw [hN]
    simp only [Dot, Scale]
    field_simp
    linarith [hsq]
  refine ⟨hN, ?_, hdot, ?_⟩
  · rw [hN]
    simp only [Determinant, Scale]
    ring
  · rw [hdot]
    exact h

theorem Normalize_eq_Scale_witness :
    Length (MakeV2f (3 : ℝ) 4) > 0 ∧
      Normalize (MakeV2f (3 : ℝ) 4) = Scale (MakeV2f 3 4) (1 / Length (MakeV2f (3 : ℝ) 4)) :=
  have h : Length (MakeV2f (3 : ℝ) 4) > 0 :=
    (Length_pos_iff _).mpr (by simp [MakeV2f])
  ⟨h, (Normalize_eq_Scale (MakeV2f 3 4) h).1⟩

/-! ## Rotate: composition -/

/-- C18: rotations about the origin compose additively,
`Rotate (Rotate p α) β = Rotate p (α + β)`; hence rotating back by `-α`
returns `p`, and `Rotate p 0 = p`. -/
theorem Rotate_Rotate (p : Point2f ℝ) (α β : ℝ) :
    Rotate (Rotate p α) β = Rotate p (α + β) ∧
      Rotate (Rotate p α) (-α) = p ∧ Rotate p 0 = p := by
  have hadd : ∀ a b : ℝ, Rotate (Rotate p a) b = Rotate p (a + b) := by
    intro a b
    have hab : (a + b) * (Real.pi / 180) = a * (Real.pi / 180) + b * (Real.pi / 180) := by
      ring
    simp only [Rotate_real]
    rw [hab, Real.cos_add, Real.sin_add]
    apply Point2f.ext
    · show (p.x * Real.cos (a * (Real.pi / 180)) - p.y * Real.sin (a * (Real.pi / 180))) *
            Real.cos (b * (Real.pi / 180)) -
          (p.x * Real.sin (a * (Real.pi / 180)) + p.y * Real.cos (a * (Real.pi / 180))) *
            Real.sin (b * (Real.pi / 180)) = _
      ring
    · show (p.x * Real.cos (a * (Real.pi / 180)) - p.y * Real.sin (a * (Real.pi / 180))) *
            Real.sin (b * (Real.pi / 180)) +
          (p.x * Real.sin (a * (Real.pi / 180)) + p.y * Real.cos (a * (Real.pi / 180))) *
            Real.cos (b * (Real.pi / 180)) = _
      ring
  have hzero : Rotate p 0 = p := by
    rw [Rotate_real, zero_mul, Real.cos_zero, Real.sin_zero]
    simp
  refine ⟨hadd α β, ?_, hzero⟩
  rw [hadd, add_neg_cancel, hzero]

/-! ## Dot and Determinant: Lagrange identity -/

/-- C19: `Dot a b ^ 2 + Determinant a b ^ 2 = Dot a a * Dot b b`; hence both
`|Dot a b|` and `|Determinant a b|` are at most `Length a * Length b`. -/
theorem Dot_sq_add_Determinant_sq (a b : Vector2f ℝ) :
    Dot a b ^ 2 + Determinant a b ^ 2 = Dot a a * Dot b b ∧
      |Dot a b| ≤ Length a * Length b ∧
      |Determinant a b| ≤ Length a * Length b := by
  have hid : Dot a b ^ 2 + Determinant a b ^ 2 = Dot a a * Dot b b := by
    simp only [Dot, Determinant]
    ring
  have hprod : (Length a * Length b) ^ 2 = Dot a a * Dot b b := by
    have ha : Length a ^ 2 = Dot a a :=
      Real.sq_sqrt (add_nonneg (mul_self_nonneg _) (mul_self_nonneg _))
    have hb : Length b ^ 2 = Dot b b :=
      Real.sq_sqrt (add_nonneg (mul_self_nonneg _) (mul_self_nonneg _))
    rw [mul_pow, ha, hb]
  have hnn : 0 ≤ Length a * Length b := mul_nonneg (Length_nonneg a) (Length_nonneg b)
  refine ⟨hid, ?_, ?_⟩
  · apply abs_le_of_sq_le_sq _ hnn
    rw [hprod, ← hid]
    nlinarith [sq_nonneg (Determinant a b)]
  · apply abs_le_of_sq_le_sq _ hnn
    rw [hprod, ← hid]
    nlinarith [sq_nonneg (Dot a b)]

/-! ## Joining with a separator -/

theorem intercalate_go_append (x acc sep : String) (l : List String) :
    String.intercalate.go (x ++ acc) sep l = x ++ String.intercalate.go acc sep l := by
  induction l generalizing acc with
  | nil => rfl
  | cons a l ih =>
    simp only [String.intercalate.go]
    rw [← ih, String.append_assoc, String.append_assoc, String.append_assoc]

theorem intercalate_cons_cons (sep a b : String) (l : List String) :
    sep.intercalate (a :: b :: l) = a ++ sep ++ sep.intercalate (b :: l) := by
  simp only [String.intercalate, String.intercalate.go]
  rw [intercalate_go_append]

theorem intercalate_singleton (sep a : String) : sep.intercalate [a] = a :=
  rfl

theorem ToStringVector_loop_eq {T : Type} (elem : T → String) (v : List T) :
    ∀ (n i : Nat) (oss : String), v.length - i = n →
      ToStringVector.loop elem v i oss = oss ++ ", ".intercalate ((v.drop i).map elem) := by
  intro n
  induction n with
  | zero =>
    intro i oss hn
    have hi : ¬ i < v.length := by omega
    rw [ToStringVector.loop, dif_neg hi, List.drop_of_length_le (by omega)]
    simp [String.intercalate]
  | succ n ih =>
    intro i oss hn
    have hi : i < v.length := by omega
    rw [ToStringVector.loop, dif_pos hi]
    simp only []
    rw [ih (i + 1) _ (by omega), List.drop_eq_getElem_cons hi]
    by_cases hnext : i + 1 < v.length
    · rw [if_pos hnext, List.drop_eq_getElem_cons hnext]
      simp only [List.map_cons]
      rw [intercalate_cons_cons, String.append_assoc, String.append_assoc,
        String.append_assoc]
    · rw [if_neg hnext, List.drop_of_length_le (by omega)]
      simp [String.intercalate, String.intercalate.go]

theorem ToStringMap_loop_eq {K V : Type} (key : K → String) (val : V → String)
    (m : StdMap K V) (oss : String) :
    ToStringMap.loop key val m oss =
      oss ++ ", ".intercalate (m.map fun e => key e.1 ++ ": " ++ val e.2) := by
  induction m generalizing oss with
  | nil => simp [ToStringMap.loop, String.intercalate]
  | cons e next ih =>
    simp only [ToStringMap.loop]
    rw [ih]
    cases next with
    | nil => simp [String.intercalate, String.intercalate.go, String.append_assoc]
    | cons e2 rest =>
      simp only [List.isEmpty_cons, Bool.false_eq_true, if_false, List.map_cons]
      rw [intercalate_cons_cons]
      simp only [String.append_assoc]

theorem Print_foldl_eq (args : List PrintArg) (acc : String) :
    args.foldl (fun out a => out ++ ", " ++ a.text) acc =
      String.intercalate.go acc ", " (args.map PrintArg.text) := by
  induction args generalizing acc with
  | nil => rfl
  | cons a args ih =>
    simp only [List.foldl_cons, List.map_cons, String.intercalate.go]
    exact ih _

theorem ToStringVector_join {T : Type} (elem : T → String) (v : List T) :
    ToStringVector elem v = "[" ++ ", ".intercalate (v.map elem) ++ "]" := by
  unfold ToStringVector
  simp only []
  rw [ToStringVector_loop_eq elem v v.length 0 _ (by omega), List.drop_zero]
  rfl

theorem ToStringMap_join {K V : Type} (key : K → String) (val : V → String)
    (m : StdMap K V) :
    ToStringMap key val m =
      "\x7b" ++ ", ".intercalate (m.map fun e => key e.1 ++ ": " ++ val e.2) ++ "\x7d" := by
  unfold ToStringMap
  simp only []
  rw [ToStringMap_loop_eq]
  rfl

/-! ## ToString and Print -/

/-- C12: `ToString` of a sequence is an opening bracket, the `ToString` of
each element in order joined by a comma and a space, and a closing bracket,
with no separator after the last element; the empty sequence gives `[]` and
the sequence 1, 2, 3 gives `[1, 2, 3]`. -/
theorem ToStringVector_eq {T : Type} (elem : T → String) (v : List T) :
    ToStringVector elem v = "[" ++ ", ".intercalate (v.map elem) ++ "]" ∧
      ToStringVector elem [] = "[]" ∧
      ToStringVector (fun n : Int => ToString n) [1, 2, 3] = "[1, 2, 3]" ∧
      (instantiate CallSite.afterTemplates (CppType.vector CppType.int)).map
          (fun f => f ([1, 2, 3] : List Int)) = some "[1, 2, 3]" := by
  have h123 : ToStringVector (fun n : Int => ToString n) [1, 2, 3] = "[1, 2, 3]" := by
    rw [ToStringVector_join]
    decide
  refine ⟨ToStringVector_join elem v, ?_, h123, ?_⟩
  · rw [ToStringVector_join]
    rfl
  · simp only [instantiate, resolve, CallSite.visible, List.mem_cons, reduceCtorEq,
      or_true, true_or, if_true, Option.map_some']
    rw [h123]

/-- C13: `ToString` of a mapping is an opening brace, `key: value` for each
entry in the mapping's iteration order joined by a comma and a space, and a
closing brace, with no separator after the last entry; the empty mapping
gives a pair of braces and the mapping of "a" to 1 gives `a: 1` in braces. -/
theorem ToStringMap_eq {K V : Type} (key : K → String) (val : V → String)
    (m : StdMap K V) :
    ToStringMap key val m =
        "\x7b" ++ ", ".intercalate (m.map fun e => key e.1 ++ ": " ++ val e.2) ++ "\x7d" ∧
      ToStringMap key val [] = "\x7b\x7d" ∧
      ToStringMap (fun s : String => ToString s) (fun n : Int => ToString n) [("a", 1)] =
        "\x7ba: 1\x7d" ∧
      (instantiate CallSite.afterTemplates (CppType.map CppType.string CppType.int)).map
          (fun f => f ([("a", 1)] : StdMap String Int)) = some "\x7ba: 1\x7d" := by
  have ha1 : ToStringMap (fun s : String => ToString s) (fun n : Int => ToString n)
      [("a", 1)] = "\x7ba: 1\x7d" := by
    rw [ToStringMap_join]
    decide
  refine ⟨ToStringMap_join key val m, ?_, ha1, ?_⟩
  · rw [ToStringMap_join]
    rfl
  · simp only [instantiate, resolve, CallSite.visible, List.mem_cons, reduceCtorEq,
      or_true, true_or, if_true, Option.map_some']
    rw [ha1]

/-- C15: `Print` appends to standard output the `ToString` of its arguments
in order, joined by a comma and a space, followed by one newline; with a
single argument it appends that argument's text and the newline only. -/
theorem Print_eq (first : PrintArg) (args : List PrintArg) (cout : String) :
    Print first args cout =
        cout ++ ", ".intercalate ((first :: args).map PrintArg.text) ++ "\n" ∧
      Print first [] cout = cout ++ first.text ++ "\n" := by
  constructor
  · unfold Print
    simp only []
    rw [Print_foldl_eq, intercalate_go_append]
    rfl
  · rfl

/-! ## Nested containers -/

theorem resolve_vector (site : CallSite) (t : CppType) :
    resolve site (CppType.vector t) = Overload.vector := by
  cases site <;> simp [resolve, CallSite.visible]

theorem instantiate_at_vector (site : CallSite) (t : CppType) :
    instantiate site (CppType.vector t) =
      (instantiate CallSite.vectorBody t).map
        (fun f => fun v : List t.Value => ToStringVector f v) := by
  rw [instantiate, resolve_vector]
  cases instantiate CallSite.vectorBody t <;> rfl

/-- C14: in the body of the vector overload a call `ToString(x)` with `x` a
`std::map` binds to the base template, because the map overload is declared
further down; so `ToString` of a vector of maps has no well-formed
instantiation, at any call site and for any key and value types, and the
vector holding the mapping of "a" to 1 yields no string.  A vector of vectors
is stringified by shape (the vector overload is visible in its own body), and
so is a map of vectors. -/
theorem instantiate_vector_of_map (site : CallSite) (k v t : CppType) :
    resolve CallSite.vectorBody (CppType.map k v) = Overload.base ∧
      instantiate site (CppType.vector (CppType.map k v)) = none ∧
      (instantiate CallSite.afterTemplates
          (CppType.vector (CppType.map CppType.string CppType.int))).map
        (fun f => f ([[("a", 1)]] : List (StdMap String Int))) = none ∧
      instantiate site (CppType.vector (CppType.vector t)) =
        (instantiate CallSite.vectorBody t).map
          (fun f => fun w : List (List t.Value) => ToStringVector (ToStringVector f) w) ∧
      (instantiate CallSite.afterTemplates (CppType.vector (CppType.vector CppType.int))).map
        (fun f => f ([[1, 2], [3]] : List (List Int))) = some "[[1, 2], [3]]" ∧
      (instantiate CallSite.afterTemplates
          (CppType.map CppType.string (CppType.vector CppType.int))).map
        (fun f => f ([("a", [1, 2])] : StdMap String (List Int))) =
          some "\x7ba: [1, 2]\x7d" := by
  have hres : resolve CallSite.vectorBody (CppType.map k v) = Overload.base := by
    simp [resolve, CallSite.visible]
  have hmap : ∀ (s : CallSite) (a b : CppType),
      instantiate s (CppType.vector (CppType.map a b)) = none := by
    intro s a b
    rw [instantiate_at_vector]
    have hbase : instantiate CallSite.vectorBody (CppType.map a b) = none := by
      simp [instantiate, resolve, CallSite.visible]
    rw [hbase]
    rfl
  refine ⟨hres, hmap site k v, ?_, ?_, ?_, ?_⟩
  · rw [hmap]
    rfl
  · rw [instantiate_at_vector, instantiate_at_vector]
    cases instantiate CallSite.vectorBody t <;> rfl
  · rw [instantiate_at_vector, instantiate_at_vector]
    simp only [instantiate, Option.map_some']
    have h : ToStringVector (fun w : List Int => ToStringVector (fun n : Int => ToString n) w)
        [[1, 2], [3]] = "[[1, 2], [3]]" := by
      simp only [ToStringVector_join, List.map]
      decide
    exact congrArg some h
  · simp only [instantiate, resolve, CallSite.visible, List.mem_cons, reduceCtorEq,
      or_true, true_or, if_true, Option.map_some']
    have h : ToStringMap (fun s : String => ToString s)
        (fun w : List Int => ToStringVector (fun n : Int => ToString n) w)
        [("a", [1, 2])] = "\x7ba: [1, 2]\x7d" := by
      simp only [ToStringMap_join, ToStringVector_join, List.map]
      decide
    exact congrArg some h

/-! ## Binary32 evaluations

What the library computes in binary32 at concrete inputs, where rounding,
underflow or the value of `M_PI` make the result differ from the exact one.
`Binary32_samples` records a few values of the arithmetic itself: `0.1f` is
`13421773 · 2^-27`, `1/3` is `0.333333343`, `4097 · 4097` is `16785408`,
`√2` is `1.41421354`, `cos 1` is `0.540302277`, `sin 1` is `0.841470957`, and
`M_PI` as a `float` is `3.14159274`. -/

/-- Sample values of the binary32 arithmetic, each computed by the kernel. -/
theorem Binary32_samples :
    (1 : Binary32) + 1 = 2 ∧
      Binary32.ofFrac false 1 10 = Binary32.finite false (13421773 * 2 ^ 122) ∧
      (1 : Binary32) / 3 = Binary32.finite false (11184811 * 2 ^ 124) ∧
      (4097 : Binary32) * 4097 = 16785408 ∧
      Binary32.ofFrac false (2 ^ 127) 1 * 4 = Binary32.inf false ∧
      Binary32.inf false - Binary32.inf false = Binary32.nan ∧
      Binary32.sqrt 25 = 5 ∧
      Binary32.sqrt 2 = Binary32.finite false (11863283 * 2 ^ 126) ∧
      Binary32.cos 0 = 1 ∧ Binary32.sin 0 = 0 ∧
      Binary32.cos 1 = Binary32.finite false (141637 * 2 ^ 131) ∧
      Binary32.sin 1 = Binary32.finite false (3529385 * 2 ^ 127) ∧
      (FloatEnv.M_PI : Binary32) = Binary32.finite false (13176795 * 2 ^ 127) := by
  decide!

theorem RotateLiteral_eq (p : Point2f ℝ) (a : ℝ) :
    RotateLiteral p a =
      ⟨p.x * Real.cos (a * (3.14159265358979323846 / 180)) -
          p.y * Real.sin (a * (3.14159265358979323846 / 180)),
       p.x * Real.sin (a * (3.14159265358979323846 / 180)) +
          p.y * Real.cos (a * (3.14159265358979323846 / 180))⟩ :=
  rfl

/-- C4, in binary32: translating `(1e8, 0)` by `(1, 0)` gives `(1e8, 0)` again,
because `1e8 + 1` rounds to `1e8`; the vector back from the translated point is
`(0, 0)`, not `(1, 0)`. -/
theorem MakeV2fBetween_Translate_binary32 :
    Translate (MakeP2f (100000000 : Binary32) 0) (MakeV2f 1 0) = MakeP2f 100000000 0 ∧
      MakeV2fBetween (MakeP2f (100000000 : Binary32) 0)
          (Translate (MakeP2f 100000000 0) (MakeV2f 1 0)) = MakeV2f 0 0 ∧
      MakeV2fBetween (MakeP2f (100000000 : Binary32) 0)
          (Translate (MakeP2f 100000000 0) (MakeV2f 1 0)) ≠ MakeV2f 1 0 := by
  decide!

/-- C2, in binary32: for the non-zero vector `(2^-80, 0)` the product
`2^-80 · 2^-80` underflows to 0, so `Length v` is 0, `Normalize v` is the zero
vector, and `Length (Normalize v)` is 0, which is not 1. -/
theorem Length_Normalize_binary32 :
    MakeV2f (Binary32.ofFrac false 1 (2 ^ 80)) (0 : Binary32) ≠ MakeV2f 0 0 ∧
      Length (MakeV2f (Binary32.ofFrac false 1 (2 ^ 80)) (0 : Binary32)) = 0 ∧
      Normalize (MakeV2f (Binary32.ofFrac false 1 (2 ^ 80)) (0 : Binary32)) = MakeV2f 0 0 ∧
      Length (Normalize (MakeV2f (Binary32.ofFrac false 1 (2 ^ 80)) (0 : Binary32))) = 0 ∧
      Length (Normalize (MakeV2f (Binary32.ofFrac false 1 (2 ^ 80)) (0 : Binary32))) ≠ 1 := by
  decide!

/-- C16, in binary32: with `a = (1e8, 0)`, `b = (1, 0)` and `t = 1` the
implemented formula gives `Lerp a b t = (1, 0)`, while
`Add a (Scale (Sub b a) t)` gives `(0, 0)`, because `1 - 1e8` rounds to `-1e8`. -/
theorem Lerp_eq_Add_Scale_Sub_binary32 :
    Lerp (MakeV2f (100000000 : Binary32) 0) (MakeV2f 1 0) 1 = MakeV2f 1 0 ∧
      Sub (MakeV2f (1 : Binary32) 0) (MakeV2f 100000000 0) =
        MakeV2f (Binary32.ofFrac true 100000000 1) 0 ∧
      Add (MakeV2f (100000000 : Binary32) 0)
          (Scale (Sub (MakeV2f 1 0) (MakeV2f 100000000 0)) 1) = MakeV2f 0 0 ∧
      Lerp (MakeV2f (100000000 : Binary32) 0) (MakeV2f 1 0) 1 ≠
        Add (MakeV2f (100000000 : Binary32) 0)
          (Scale (Sub (MakeV2f 1 0) (MakeV2f 100000000 0)) 1) := by
  decide!

/-- C20, in binary32: with `t = 0.1f`, `Lerp (3, 3) (3, 3) t` is
`(2.99999976, 2.99999976)` (that is `12582911 · 2^-22` in each component),
not `(3, 3)`. -/
theorem Lerp_self_binary32 :
    Lerp (MakeV2f (3 : Binary32) 3) (MakeV2f 3 3) (Binary32.ofFrac false 1 10) =
        MakeV2f (Binary32.finite false (12582911 * 2 ^ 127))
          (Binary32.finite false (12582911 * 2 ^ 127)) ∧
      Lerp (MakeV2f (3 : Binary32) 3) (MakeV2f 3 3) (Binary32.ofFrac false 1 10) ≠
        MakeV2f 3 3 := by
  decide!

/-- C17, in binary32: `v = (3, 7)` has `Length v = 7.6157732 > 0` and
`Normalize v = Scale v (1 / Length v)`, but `Determinant v (Normalize v)` is
`-2^-22` (about `-2.4e-7`), not 0, and `Dot v (Normalize v)` is `7.6157727`,
not `Length v`. -/
theorem Normalize_eq_Scale_binary32 :
    Length (MakeV2f (3 : Binary32) 7) > 0 ∧
      Length (MakeV2f (3 : Binary32) 7) = Binary32.finite false (7985717 * 2 ^ 129) ∧
      Normalize (MakeV2f (3 : Binary32) 7) =
        Scale (MakeV2f 3 7) (1 / Length (MakeV2f (3 : Binary32) 7)) ∧
      Determinant (MakeV2f (3 : Binary32) 7) (Normalize (MakeV2f 3 7)) =
        Binary32.finite true (2 ^ 127) ∧
      Determinant (MakeV2f (3 : Binary32) 7) (Normalize (MakeV2f 3 7)) ≠ 0 ∧
      Dot (MakeV2f (3 : Binary32) 7) (Normalize (MakeV2f 3 7)) =
        Binary32.finite false (15971433 * 2 ^ 128) ∧
      Dot (MakeV2f (3 : Binary32) 7) (Normalize (MakeV2f 3 7)) ≠
        Length (MakeV2f (3 : Binary32) 7) := by
  decide!

/-- C3, in binary32: for `p = (3, 4)` and 45 degrees, `Rotate p 45` is
`(-0.70710683, 4.9497471)`, whose distance from the origin is `4.99999952`
(that is `10485759 · 2^-21`), while the distance of `p` is 5.  The angle in
radians is the same whether the product is taken in `float` or, as the
compiler does, in `double`. -/
theorem Length_Rotate_binary32 :
    Binary32.radiansViaDouble 45 = (45 : Binary32) * (FloatEnv.M_PI / 180) ∧
      Rotate (MakeP2f (3 : Binary32) 4) 45 =
        MakeP2f (Binary32.finite true (2965821 * 2 ^ 127))
          (Binary32.finite false (2595093 * 2 ^ 130)) ∧
      Length (MakeV2fBetween (MakeP2f 0 0) (Rotate (MakeP2f (3 : Binary32) 4) 45)) =
        Binary32.finite false (10485759 * 2 ^ 128) ∧
      Length (MakeV2fBetween (MakeP2f 0 0) (MakeP2f (3 : Binary32) 4)) = 5 ∧
      Length (MakeV2fBetween (MakeP2f 0 0) (Rotate (MakeP2f (3 : Binary32) 4) 45)) ≠
        Length (MakeV2fBetween (MakeP2f 0 0) (MakeP2f (3 : Binary32) 4)) := by
  decide!

/-- C6, at `Rotate (1, 0) 90`.  Over exact arithmetic with the constant
`M_PI = 3.14159265358979323846` of the source, the angle `90 · M_PI / 180` is
below `π / 2`, its cosine is positive, and the result is not `(0, 1)`.  In
binary32 the angle is `1.57079637`, above `π / 2`, and the result is
`(-4.37113883e-8, 1)` (first component `-6151831 · 2^-47`), not `(0, 1)`. -/
theorem Rotate_quarter_turn_source :
    RotateLiteral (MakeP2f 1 0) 90 ≠ MakeP2f 0 1 ∧
      Binary32.radiansViaDouble 90 = (90 : Binary32) * (FloatEnv.M_PI / 180) ∧
      Rotate (MakeP2f (1 : Binary32) 0) 90 =
        MakeP2f (Binary32.finite true (6151831 * 2 ^ 102)) 1 ∧
      Rotate (MakeP2f (1 : Binary32) 0) 90 ≠ MakeP2f 0 1 := by
  refine ⟨?_, by decide!, by decide!, by decide!⟩
  intro h
  have hx : (RotateLiteral (MakeP2f 1 0) 90).x = 0 := by
    rw [h]
    rfl
  rw [RotateLiteral_eq] at hx
  simp only [MakeP2f, one_mul, zero_mul, sub_zero] at hx
  have hpi := Real.pi_gt_d20
  have hpos : 0 < Real.cos (90 * (3.14159265358979323846 / 180)) := by
    apply Real.cos_pos_of_mem_Ioo
    constructor
    · have := Real.pi_pos
      norm_num
      linarith
    · linarith
  linarith

/-- C7, at `Rotate (1, 0) 360`, over exact arithmetic with the constant
`M_PI = 3.14159265358979323846` of the source: the angle `360 · M_PI / 180`
lies strictly between `π` and `2π`, its sine is negative, and the result is
not `(1, 0)`. -/
theorem Rotate_full_turn_source :
    RotateLiteral (MakeP2f 1 0) 360 ≠ MakeP2f 1 0 := by
  intro h
  have hy : (RotateLiteral (MakeP2f 1 0) 360).y = 0 := by
    rw [h]
    rfl
  rw [RotateLiteral_eq] at hy
  simp only [MakeP2f, one_mul, zero_mul, add_zero] at hy
  have hpi := Real.pi_gt_d20
  have hpi4 := Real.pi_le_four
  have hneg : Real.sin (360 * (3.14159265358979323846 / 180)) < 0 := by
    rw [← Real.sin_sub_two_pi]
    apply Real.sin_neg_of_neg_of_neg_pi_lt
    · linarith
    · linarith
  linarith

end Geometry
